import Mathlib

/-!
Verification of the batch conversion pipeline of the heic-pdf repository.

The definitions below are a shallow embedding of the TypeScript source:

* `handleConvert` (image session page, `src/unnamed/part_000`, the full image
  pipeline with per-file edit overlay),
* `heicHandleConvert` (HEIC-only pipeline, `src/unnamed/part_009`),
* `pageHandleConvert` (HEIC session page, `src/app/session/[id]/page.tsx`),
* `handleFormatChange` (`src/unnamed/part_001`),
* the crop-normalization step of the image editor's `handleSave`
  (`src/unnamed/part_000`, lines 1482-1507),
* the batch-rename resolver of `src/components/batch-rename-dialog.tsx`.

Byte buffers are abstracted into a provenance datatype `Blob`; the external
decode collaborator (`heic2any`) and the canvas encoder are represented by an
environment of failure oracles, so that a run of the orchestrator is a pure
fold over the task list exactly mirroring the source's loop structure
(including the fixed-size batching of the file list).
-/

/-! ### String helpers mirroring the JavaScript primitives used by the source -/

/-- JavaScript `String.prototype.split(".")` on the character list: splits at
every `'.'`, keeping empty components (`"a."` gives `["a", ""]`, `"abc"` gives
`["abc"]`). -/
def splitDotChars : List Char → List (List Char)
  | [] => [[]]
  | c :: cs =>
    match splitDotChars cs with
    | [] => [[]]
    | r :: rs => if c = '.' then [] :: r :: rs else (c :: r) :: rs

/-- JavaScript `name.split(".")`. -/
def splitDot (s : String) : List String :=
  (splitDotChars s.data).map String.mk

/-- JavaScript `name.split(".").pop() || ""`: the last dot-separated component
(`""` both for the empty pop result and as the `||` fallback). -/
def lastSplitDot (s : String) : String :=
  ((splitDot s).getLast?).getD ""

/-- ASCII lower casing of one character (the fragment of JavaScript
`toLowerCase` exercised by the source, which only lower-cases file names
before an ASCII suffix test). -/
def lowerChar (c : Char) : Char :=
  if 65 ≤ c.toNat ∧ c.toNat ≤ 90 then Char.ofNat (c.toNat + 32) else c

/-- ASCII upper casing of one character (JavaScript `toUpperCase` on the
format tokens `"jpeg"`, `"png"`, `"webp"`). -/
def upperChar (c : Char) : Char :=
  if 97 ≤ c.toNat ∧ c.toNat ≤ 122 then Char.ofNat (c.toNat - 32) else c

/-- JavaScript `s.toLowerCase()` restricted to ASCII. -/
def strToLower (s : String) : String :=
  String.mk (s.data.map lowerChar)

/-- JavaScript `s.toUpperCase()` restricted to ASCII. -/
def strToUpper (s : String) : String :=
  String.mk (s.data.map upperChar)

/-- JavaScript `s.endsWith(post)`. -/
def strEndsWith (s post : String) : Bool :=
  s.data.drop (s.data.length - post.data.length) == post.data

/-- Split a character list around the first occurrence of a pattern:
`firstSplit pat l = some (before, after)` when `pat` occurs in `l`. -/
def firstSplit (pat : List Char) : List Char → Option (List Char × List Char)
  | [] => if pat.isEmpty then some ([], []) else none
  | c :: cs =>
    if pat.isPrefixOf (c :: cs) then some ([], (c :: cs).drop pat.length)
    else
      match firstSplit pat cs with
      | some (b, a) => some (c :: b, a)
      | none => none

/-- JavaScript `s.replace(pat, rep)` with a plain string pattern: replaces the
FIRST occurrence only, and returns the string unchanged when the pattern does
not occur. -/
def replaceFirst (s pat rep : String) : String :=
  match firstSplit pat.data s.data with
  | some (b, a) => String.mk (b ++ rep.data ++ a)
  | none => s

/-- JavaScript `n.toString().padStart(2, "0")`. -/
def pad2 (n : Nat) : String :=
  if n < 10 then "0" ++ toString n else toString n

/-- JavaScript `n.toString().padStart(3, "0")`. -/
def pad3 (n : Nat) : String :=
  if n < 10 then "00" ++ toString n
  else if n < 100 then "0" ++ toString n
  else toString n

/-- `String.intercalate "."` written as a plain recursion (joins the parts the
dot split produced back together). -/
def joinDots : List String → String
  | [] => ""
  | [s] => s
  | s :: rest => s ++ "." ++ joinDots rest

/-- JavaScript `file.name.replace(/\.[^/.]+$/, "")` (remove a trailing
extension): drops the part after the last dot when that part is non-empty and
free of `'/'`, and leaves the name unchanged otherwise. -/
def removeExt (name : String) : String :=
  let parts := splitDot name
  let last := (parts.getLast?).getD ""
  if 2 ≤ parts.length ∧ last ≠ "" ∧ ¬ last.data.contains '/' then
    joinDots (parts.dropLast)
  else
    name

/-! ### Data model -/

/-- An uploaded file: `name` (with extension) and the declared MIME type
(`File.type` in the browser). The byte payload is abstracted by provenance,
see `Blob`. -/
structure InputFile where
  name : String
  ttype : String
deriving Repr, DecidableEq

/-- Provenance-tracking abstraction of a binary image payload:
`orig` is an uploaded file's own bytes, `edited` is a payload saved by the
image editor (with the encoding its `canvas.toBlob` produced and an identity
tag), `decoded` is the output of the `heic2any` decode collaborator for a
requested `toType`, and `reencoded` is the output of a canvas re-encode to a
MIME type. -/
inductive Blob where
  | orig (name ttype : String)
  | edited (enc : String) (tag : Nat)
  | decoded (src : Blob) (toType : String)
  | reencoded (src : Blob) (mime : String)
deriving Repr, DecidableEq

/-- The MIME encoding a payload currently carries, as far as the model can
tell: an original file carries its declared type, an edited payload carries
the encoding the editor produced, a decode result carries the `toType` it was
asked for, and a re-encode result carries the target MIME. -/
def Blob.encoding : Blob → String
  | .orig _ t => t
  | .edited e _ => e
  | .decoded _ t => t
  | .reencoded _ m => m

/-- Whether a payload is the output of the canvas re-encode step. -/
def Blob.isReencoded : Blob → Bool
  | .reencoded _ _ => true
  | _ => false

/-- Failure oracles for the two external collaborators: `decodeErr name toType`
is `some message` when the `heic2any` call for that file and requested type
throws (with that error message), and `encodeErr blob mime` is `some message`
when the canvas re-encode of that payload to that MIME type throws. -/
structure Env where
  decodeErr : String → String → Option String
  encodeErr : Blob → String → Option String

/-- One successfully produced conversion output (`converted.push` element):
output file name, MIME type, payload, and the format token of the task. -/
structure OutputRecord where
  name : String
  mime : String
  blob : Blob
  format : String
deriving Repr, DecidableEq

/-- `conversionProgress` state: total and completed task counters, the current
task label, and the mirrored error list. -/
structure ConversionProgress where
  totalFiles : Nat
  completedFiles : Nat
  currentFile : String
  errors : List String
deriving Repr, DecidableEq

/-- The mutable state threaded through the conversion loop: the progress
structure plus the local `converted` and `errors` accumulators. -/
structure LoopState where
  progress : ConversionProgress
  converted : List OutputRecord
  errors : List String
deriving Repr, DecidableEq

/-- The observable outcome of one `handleConvert` call: final progress,
produced records, error list, and the delta applied to the persisted
`totalConversions` usage counter. -/
structure ConvResult where
  progress : ConversionProgress
  converted : List OutputRecord
  errors : List String
  statsDelta : Nat
deriving Repr, DecidableEq

/-! ### The full image pipeline (`src/unnamed/part_000`, `handleConvert`) -/

/-- `toType: format === "webp" ? "image/jpeg" : format` — the type requested
from `heic2any`. -/
def heicToType (format : String) : String :=
  if format == "webp" then "image/jpeg" else format

/-- `file.name.toLowerCase().endsWith(".heic") || file.type === "image/heic"`. -/
def isHeicFile (f : InputFile) : Bool :=
  strEndsWith (strToLower f.name) ".heic" || f.ttype == "image/heic"

/-- Resolution of the effective source payload (part_000 lines 380-398):
a saved edit wins verbatim; otherwise HEIC files are decoded via `heic2any`
(which may fail); otherwise the original bytes are used unchanged. -/
def resolveSource (env : Env) (edits : String → Option Blob) (f : InputFile)
    (format : String) : Except String Blob :=
  match edits f.name with
  | some b => Except.ok b
  | none =>
    if isHeicFile f then
      match env.decodeErr f.name (heicToType format) with
      | some msg => Except.error msg
      | none => Except.ok (Blob.decoded (Blob.orig f.name f.ttype) (heicToType format))
    else
      Except.ok (Blob.orig f.name f.ttype)

/-- The source's re-encode gate (part_000 line 402):
`format === "webp" || (file.type !== image/format && !fileEdits[file.name]?.blob)`. -/
def reencodeCond (edits : String → Option Blob) (f : InputFile) (format : String) : Bool :=
  format == "webp" || (f.ttype != "image/" ++ format && (edits f.name).isNone)

/-- The MIME type `convertImageFormat` encodes to (part_000 line 516). -/
def encodeMime (format : String) : String :=
  if format == "jpg" || format == "jpeg" then "image/jpeg" else "image/" ++ format

/-- The MIME type stamped on the produced `File` (part_000 line 414). -/
def outMime (format : String) : String :=
  if format == "webp" then "image/webp"
  else if format == "jpeg" then "image/jpeg"
  else "image/" ++ format

/-- The canvas re-encode helper (part_000 lines 500-533): may fail with the
oracle's message, otherwise wraps the payload as re-encoded to `encodeMime`. -/
def convertImageFormat (env : Env) (b : Blob) (format : String) (_quality : ℚ) :
    Except String Blob :=
  match env.encodeErr b (encodeMime format) with
  | some msg => Except.error msg
  | none => Except.ok (Blob.reencoded b (encodeMime format))

/-- Output naming (part_000 lines 408-411):
`ext = name.split(".").pop() || ""`,
`base = name.substring(0, name.length - ext.length - 1)` (JavaScript
`substring` clamps a negative end to 0, exactly like truncated `Nat`
subtraction), and the output name is `base + "." + format`. -/
def outputName (name format : String) : String :=
  let ext := lastSplitDot name
  let base := String.mk (name.data.take (name.length - ext.length - 1))
  base ++ "." ++ format

/-- One (file, format) task of the part_000 pipeline: resolve the source
payload, re-encode when the gate requires it, and build the output record. -/
def runTask (env : Env) (edits : String → Option Blob) (f : InputFile)
    (format : String) (quality : ℚ) : Except String OutputRecord :=
  match resolveSource env edits f format with
  | Except.error msg => Except.error msg
  | Except.ok src =>
    match (if reencodeCond edits f format then convertImageFormat env src format quality
           else Except.ok src) with
    | Except.error msg => Except.error msg
    | Except.ok finalBlob =>
      Except.ok
        { name := outputName f.name format
          mime := outMime format
          blob := finalBlob
          format := format }

/-- `[...prev.errors, ...errors.slice(prev.errors.length)]`: the progress error
list is extended with whatever suffix of the local error list it is missing. -/
def syncErrors (progErrs errs : List String) : List String :=
  progErrs ++ errs.drop progErrs.length

/-- One iteration of the inner task loop of part_000 (lines 373-441): set the
current task label, run the task, then either push the record or append the
formatted error string, and in the `finally` bump the completed counter and
sync the progress error list. -/
def stepTask (env : Env) (edits : String → Option Blob) (quality : ℚ)
    (s : LoopState) (f : InputFile) (format : String) : LoopState :=
  let p1 := { s.progress with currentFile := f.name ++ " to " ++ strToUpper format }
  match runTask env edits f format quality with
  | Except.ok r =>
    { progress :=
        { p1 with
          completedFiles := p1.completedFiles + 1
          errors := syncErrors p1.errors s.errors }
      converted := s.converted ++ [r]
      errors := s.errors }
  | Except.error msg =>
    let errs := s.errors ++ [f.name ++ " to " ++ format ++ ": " ++ msg]
    { progress :=
        { p1 with
          completedFiles := p1.completedFiles + 1
          errors := syncErrors p1.errors errs }
      converted := s.converted
      errors := errs }

/-- Helper for `toBatches`: accumulates the current batch (in reverse) with
`k` free slots left in it. -/
def toBatchesGo (n : Nat) : List α → List α → Nat → List (List α)
  | [], acc, _ => if acc.isEmpty then [] else [acc.reverse]
  | x :: xs, acc, 0 => acc.reverse :: toBatchesGo n xs [x] (n - 1)
  | x :: xs, acc, k + 1 => toBatchesGo n xs (x :: acc) k

/-- The slicing loop `for (i = 0; i < files.length; i += batchSize)
{ batch = files.slice(i, i + batchSize); ... }`: the file list in consecutive
batches of `n`. -/
def toBatches (n : Nat) (l : List α) : List (List α) :=
  match l with
  | [] => []
  | x :: xs => toBatchesGo n xs [x] (n - 1)

/-- The two inner loops of part_000: every format for one file, in selection
order. -/
def runFile (env : Env) (edits : String → Option Blob) (quality : ℚ)
    (formats : List String) (s : LoopState) (f : InputFile) : LoopState :=
  formats.foldl (fun s fmt => stepTask env edits quality s f fmt) s

/-- Processing of one batch: every file of the batch, in order. -/
def runBatch (env : Env) (edits : String → Option Blob) (quality : ℚ)
    (formats : List String) (s : LoopState) (batch : List InputFile) : LoopState :=
  batch.foldl (runFile env edits quality formats) s

/-- The whole batched loop of part_000. -/
def runBatches (env : Env) (edits : String → Option Blob) (quality : ℚ)
    (formats : List String) (s : LoopState) (batches : List (List InputFile)) : LoopState :=
  batches.foldl (runBatch env edits quality formats) s

/-- `handleConvert` of the image pipeline (part_000 lines 348-497): early
return on an empty file list (progress untouched); otherwise reset progress to
`|files| * |formats|` total tasks, run the batched nested loops (batch size 3),
clear the current-task label in the trailing `finally`, and report the usage
counter delta `converted.length` (line 453). -/
def handleConvert (env : Env) (edits : String → Option Blob)
    (files : List InputFile) (formats : List String) (quality : ℚ)
    (prog0 : ConversionProgress) : ConvResult :=
  if files.length = 0 then
    { progress := prog0, converted := [], errors := [], statsDelta := 0 }
  else
    let init : LoopState :=
      { progress :=
          { totalFiles := files.length * formats.length
            completedFiles := 0
            currentFile := ""
            errors := [] }
        converted := []
        errors := [] }
    let s := runBatches env edits quality formats init (toBatches 3 files)
    { progress := { s.progress with currentFile := "" }
      converted := s.converted
      errors := s.errors
      statsDelta := s.converted.length }

/-! ### The HEIC-only pipeline (`src/unnamed/part_009`, `handleConvert`) -/

/-- Output naming of the HEIC pipeline:
`file.name.replace(/\.heic$/i, "." + format)` — replace a case-insensitive
trailing `".heic"`, otherwise leave the name unchanged. -/
def heicOutName (name format : String) : String :=
  if strEndsWith (strToLower name) ".heic" then
    String.mk (name.data.take (name.length - 5)) ++ "." ++ format
  else
    name

/-- The MIME type stamped on the HEIC pipeline's produced `File`
(part_009 line 239): `webp → image/webp, jpeg → image/jpeg, else image/png`. -/
def heicOutMime (format : String) : String :=
  if format == "webp" then "image/webp"
  else if format == "jpeg" then "image/jpeg"
  else "image/png"

/-- One file task of the HEIC pipeline (part_009 lines 213-254): decode via
`heic2any` (requested type `heicToType format`), then re-encode through the
canvas only when the target is webp (`convertToWebP`). -/
def heicTask (env : Env) (f : InputFile) (format : String) (_quality : ℚ) :
    Except String OutputRecord :=
  match env.decodeErr f.name (heicToType format) with
  | some msg => Except.error msg
  | none =>
    let blob := Blob.decoded (Blob.orig f.name f.ttype) (heicToType format)
    match (if format == "webp" then
             match env.encodeErr blob "image/webp" with
             | some msg => Except.error msg
             | none => Except.ok (Blob.reencoded blob "image/webp")
           else Except.ok blob) with
    | Except.error msg => Except.error msg
    | Except.ok finalBlob =>
      Except.ok
        { name := heicOutName f.name format
          mime := heicOutMime format
          blob := finalBlob
          format := format }

/-- One iteration of the per-file loop of part_009: set the current-file label
(just the file name there), run the task, push record or append the error
string `"<file.name>: <message>"` (part_009 line 256), and bump the completed
counter in the `finally`. -/
def heicStep (env : Env) (format : String) (quality : ℚ)
    (s : LoopState) (f : InputFile) : LoopState :=
  let p1 := { s.progress with currentFile := f.name }
  match heicTask env f format quality with
  | Except.ok r =>
    { progress :=
        { p1 with
          completedFiles := p1.completedFiles + 1
          errors := syncErrors p1.errors s.errors }
      converted := s.converted ++ [r]
      errors := s.errors }
  | Except.error msg =>
    let errs := s.errors ++ [f.name ++ ": " ++ msg]
    { progress :=
        { p1 with
          completedFiles := p1.completedFiles + 1
          errors := syncErrors p1.errors errs }
      converted := s.converted
      errors := errs }

/-- `handleConvert` of the HEIC pipeline (part_009 lines 186-322): early
return on an empty file list, progress reset with `totalFiles = files.length`
(one selected format), batches of 5 whose per-file updates are each atomic,
final current-file clear, usage counter delta `converted.length`
(part_009 line 285). -/
def heicHandleConvert (env : Env) (files : List InputFile) (format : String)
    (quality : ℚ) (prog0 : ConversionProgress) : ConvResult :=
  if files.length = 0 then
    { progress := prog0, converted := [], errors := [], statsDelta := 0 }
  else
    let init : LoopState :=
      { progress :=
          { totalFiles := files.length
            completedFiles := 0
            currentFile := ""
            errors := [] }
        converted := []
        errors := [] }
    let s := (toBatches 5 files).foldl
      (fun s batch => batch.foldl (heicStep env format quality) s) init
    { progress := { s.progress with currentFile := "" }
      converted := s.converted
      errors := s.errors
      statsDelta := s.converted.length }

/-! ### The HEIC session page (`src/app/session/[id]/page.tsx`) -/

/-- One (file, format) task of the session page's main-thread conversion
(page.tsx lines 517-560): `heic2any` unconditionally on every file, webp
re-encode through the canvas, HEIC-suffix renaming, and the page's own MIME
mapping (`else image/png`). The page looks up `fileEdits[file.name]` but
applies nothing ("Apply edits if any ... simplified version"), so the edit
mapping has no effect here. -/
def pageTask (env : Env) (f : InputFile) (format : String) (quality : ℚ) :
    Except String OutputRecord :=
  heicTask env f format quality

/-- One iteration of the session page's nested task loop: label
`"<file.name> to <FORMAT>"`, push record or append
`"<file.name> to <format>: <message>"` (page.tsx line 562), counter bump in
the `finally`. -/
def pageStep (env : Env) (quality : ℚ) (s : LoopState) (f : InputFile)
    (format : String) : LoopState :=
  let p1 := { s.progress with currentFile := f.name ++ " to " ++ strToUpper format }
  match pageTask env f format quality with
  | Except.ok r =>
    { progress :=
        { p1 with
          completedFiles := p1.completedFiles + 1
          errors := syncErrors p1.errors s.errors }
      converted := s.converted ++ [r]
      errors := s.errors }
  | Except.error msg =>
    let errs := s.errors ++ [f.name ++ " to " ++ format ++ ": " ++ msg]
    { progress :=
        { p1 with
          completedFiles := p1.completedFiles + 1
          errors := syncErrors p1.errors errs }
      converted := s.converted
      errors := errs }

/-- `convertOnMainThread` of the session page (page.tsx lines 505-575):
batches of 3 with the nested file/format loops. -/
def pageConvertOnMainThread (env : Env) (files : List InputFile)
    (formats : List String) (quality : ℚ) (init : LoopState) : LoopState :=
  (toBatches 3 files).foldl
    (fun s batch =>
      batch.foldl
        (fun s f => formats.foldl (fun s fmt => pageStep env quality s f fmt) s) s)
    init

/-- `handleConvert` of the session page (page.tsx lines 434-502), modelling the
main-thread fallback path: early return on an empty file list, progress reset
to `|files| * |formats|` total tasks, run `convertOnMainThread`, and then —
the point the spec contradicts — update the persisted usage counter by
`files.length * formats.length` (page.tsx line 488), not by the number of
successfully produced records. -/
def pageHandleConvert (env : Env) (files : List InputFile)
    (formats : List String) (quality : ℚ) (prog0 : ConversionProgress) : ConvResult :=
  if files.length = 0 then
    { progress := prog0, converted := [], errors := [], statsDelta := 0 }
  else
    let init : LoopState :=
      { progress :=
          { totalFiles := files.length * formats.length
            completedFiles := 0
            currentFile := ""
            errors := [] }
        converted := []
        errors := [] }
    let s := pageConvertOnMainThread env files formats quality init
    { progress := s.progress
      converted := s.converted
      errors := s.errors
      statsDelta := files.length * formats.length }

/-! ### Output-format selection (`src/unnamed/part_001`, `handleFormatChange`) -/

/-- The selectable output formats of the image pipeline. -/
inductive OutputFormat where
  | jpeg
  | png
  | webp
deriving Repr, DecidableEq

/-- `handleFormatChange` (part_001 lines 138-147): checking a box appends the
format; unchecking removes it only when more than one format is selected
("Don't allow removing the last format"), and otherwise leaves the selection
unchanged. -/
def handleFormatChange (formats : List OutputFormat) (format : OutputFormat)
    (checked : Bool) : List OutputFormat :=
  if checked then
    formats ++ [format]
  else
    if 1 < formats.length then
      formats.filter (fun f => f != format)
    else
      formats

/-! ### Crop normalization in the image editor's `handleSave`
(`src/unnamed/part_000`, lines 1482-1507) -/

/-- A crop rectangle in source-pixel space; a drag from bottom-right to
top-left produces negative width/height. -/
structure CropRect where
  x : Int
  y : Int
  width : Int
  height : Int
deriving Repr, DecidableEq

/-- The "Ensure positive width and height" block of `handleSave`
(part_000 lines 1489-1492):
`x = width > 0 ? x : x + width`, `y = height > 0 ? y : y + height`,
`width = |width|`, `height = |height|`. -/
def normalizeCrop (r : CropRect) : CropRect :=
  { x := if 0 < r.width then r.x else r.x + r.width
    y := if 0 < r.height then r.y else r.y + r.height
    width := |r.width|
    height := |r.height| }

/-- The crop guard of `handleSave` (part_000 line 1482): the crop is applied
only while cropping with a rectangle of non-zero width and height, and the
applied rectangle is the normalized one. -/
def handleSaveCrop (isCropping : Bool) (r : CropRect) : Option CropRect :=
  if isCropping ∧ r.width ≠ 0 ∧ r.height ≠ 0 then some (normalizeCrop r) else none

/-! ### Batch rename resolver (`src/components/batch-rename-dialog.tsx`) -/

/-- The three rename modes of the dialog. -/
inductive PatternType where
  | custom
  | sequence
  | date
deriving Repr, DecidableEq

/-- The fields the resolver reads off one `new Date()` value, already in their
user-facing numbering (`month` is `getMonth() + 1`, and so on). -/
structure DateParts where
  year : Nat
  month : Nat
  day : Nat
  hour : Nat
  minute : Nat
deriving Repr, DecidableEq

/-- The date formatting of the dialog (lines 50-61): first-occurrence
replacement of the five tokens, in the fixed order `yyyy, MM, dd, HH, mm`,
each zero-padded as in the source. -/
def formatDate (dateFormat : String) (d : DateParts) : String :=
  let s := replaceFirst dateFormat "yyyy" (toString d.year)
  let s := replaceFirst s "MM" (pad2 d.month)
  let s := replaceFirst s "dd" (pad2 d.day)
  let s := replaceFirst s "HH" (pad2 d.hour)
  let s := replaceFirst s "mm" (pad2 d.minute)
  s

/-- `fileExt` of the dialog (line 40): `file.name.split(".").pop() || "heic"`. -/
def renameFileExt (name : String) : String :=
  let e := lastSplitDot name
  if e = "" then "heic" else e

/-- The name one file receives (the body of the `files.map` callback, dialog
lines 38-81). `now` is the `Date` value the callback's own `new Date()` call
returned. -/
def resolveOneName (pattern : String) (ptype : PatternType) (startNumber : Nat)
    (dateFormat : String) (keepExt : Bool) (idx : Nat) (name : String)
    (now : DateParts) : String :=
  let fileName := removeExt name
  let fileExt := renameFileExt name
  let newName :=
    match ptype with
    | PatternType.custom => pattern
    | PatternType.sequence => pattern ++ "-" ++ pad2 (startNumber + idx)
    | PatternType.date => pattern ++ "-" ++ formatDate dateFormat now
  let newName := replaceFirst newName "{name}" fileName
  let newName := replaceFirst newName "{index}" (toString (idx + 1))
  let newName := replaceFirst newName "{index2}" (pad2 (idx + 1))
  let newName := replaceFirst newName "{index3}" (pad3 (idx + 1))
  if keepExt then newName ++ "." ++ fileExt else newName

/-- The batch rename resolver (dialog lines 35-84): one resolved name per
file. `new Date()` is called INSIDE the per-file callback, once per file, so
the callback for index `i` sees the clock's `i`-th reading `clock i`. -/
def batchRenameNames (files : List String) (pattern : String)
    (ptype : PatternType) (startNumber : Nat) (dateFormat : String)
    (keepExt : Bool) (clock : Nat → DateParts) : List String :=
  files.enum.map fun p =>
    resolveOneName pattern ptype startNumber dateFormat keepExt p.1 p.2 (clock p.1)

/-- Modelled from the spec: §4.3 batch rename, date mode — "computed once per
resolver invocation (all files in one batch rename share the same timestamp)".
Identical to `batchRenameNames` except that the timestamp is read once, at the
start of the invocation, and shared by every file. -/
def batchRenameNamesOnce (files : List String) (pattern : String)
    (ptype : PatternType) (startNumber : Nat) (dateFormat : String)
    (keepExt : Bool) (clock : Nat → DateParts) : List String :=
  let d := clock 0
  files.enum.map fun p =>
    resolveOneName pattern ptype startNumber dateFormat keepExt p.1 p.2 d

/-! ### The spec's re-encode condition (for comparison with the source's) -/

/-- Modelled from the spec: §4.1 step (c) — run the Codec Adapter iff "the
target format differs from the resolved payload's current encoding (or the
target is the web-native compressed format, which always requires a re-encode
pass)". The target format's encoding is its output MIME. -/
def specReencodeCond (payload : Blob) (format : String) : Bool :=
  format == "webp" || outMime format != payload.encoding

/-! ### Structural lemmas about the batching loop -/

/-- Flattening `toBatchesGo`: the accumulated batch (reversed) followed by the
remaining input. -/
theorem toBatchesGo_join {α : Type _} (n : Nat) :
    ∀ (xs acc : List α) (k : Nat), (toBatchesGo n xs acc k).join = acc.reverse ++ xs := by
  intro xs
  induction xs with
  | nil =>
    intro acc k
    by_cases h : acc.isEmpty
    · simp [toBatchesGo, h, List.isEmpty_iff.mp h]
    · simp [toBatchesGo, h]
  | cons x xs ih =>
    intro acc k
    cases k with
    | zero => simp [toBatchesGo, ih]
    | succ k => simp [toBatchesGo, ih]

/-- Batching never loses or reorders files: joining the batches gives the
original list back. -/
theorem toBatches_join {α : Type _} (n : Nat) (l : List α) :
    (toBatches n l).join = l := by
  cases l with
  | nil => rfl
  | cons x xs => simp [toBatches, toBatchesGo_join]

/-- A fold of folds over a partition is the fold over the flattened list. -/
theorem foldl_foldl_join {α β : Type _} (f : β → α → β) :
    ∀ (L : List (List α)) (b : β),
      L.foldl (fun b l => l.foldl f b) b = L.join.foldl f b := by
  intro L
  induction L with
  | nil => intro b; rfl
  | cons l L ih => intro b; simp [List.foldl_append, ih]

/-- The batched run of the image pipeline is the plain fold over the files. -/
theorem runBatches_toBatches (env : Env) (edits : String → Option Blob)
    (quality : ℚ) (formats : List String) (s : LoopState) (files : List InputFile) :
    runBatches env edits quality formats s (toBatches 3 files) =
      files.foldl (runFile env edits quality formats) s := by
  show (toBatches 3 files).foldl
      (fun s batch => batch.foldl (runFile env edits quality formats) s) s = _
  rw [foldl_foldl_join, toBatches_join]

/-! ### Counting lemmas -/

/-- A fold whose every step increases a measure by a fixed amount increases it
by the length of the list times that amount. -/
theorem foldl_measure_add {σ β : Type _} (μ : σ → Nat) (step : σ → β → σ) (k : Nat)
    (h : ∀ s b, μ (step s b) = μ s + k) :
    ∀ (l : List β) (s : σ), μ (l.foldl step s) = μ s + l.length * k := by
  intro l
  induction l with
  | nil => intro s; simp
  | cons x xs ih =>
    intro s
    rw [List.foldl_cons, ih, h]
    simp [List.length_cons]
    ring

/-- Each task bumps the completed counter by exactly one, whether the task
succeeded or failed. -/
theorem stepTask_completedFiles (env : Env) (edits : String → Option Blob)
    (quality : ℚ) (s : LoopState) (f : InputFile) (format : String) :
    (stepTask env edits quality s f format).progress.completedFiles =
      s.progress.completedFiles + 1 := by
  cases hr : runTask env edits f format quality <;> simp [stepTask, hr]

/-- Each task contributes exactly one outcome: a record or an error. -/
theorem stepTask_outcomes (env : Env) (edits : String → Option Blob)
    (quality : ℚ) (s : LoopState) (f : InputFile) (format : String) :
    (stepTask env edits quality s f format).converted.length +
        (stepTask env edits quality s f format).errors.length =
      s.converted.length + s.errors.length + 1 := by
  cases hr : runTask env edits f format quality <;> simp [stepTask, hr] <;> omega

/-- Running all formats for one file bumps the completed counter by the number
of formats. -/
theorem runFile_completedFiles (env : Env) (edits : String → Option Blob)
    (quality : ℚ) (formats : List String) (s : LoopState) (f : InputFile) :
    (runFile env edits quality formats s f).progress.completedFiles =
      s.progress.completedFiles + formats.length := by
  have h := foldl_measure_add (fun s => s.progress.completedFiles)
    (fun s fmt => stepTask env edits quality s f fmt) 1
    (fun s fmt => stepTask_completedFiles env edits quality s f fmt) formats s
  simpa [runFile] using h

/-- Running all formats for one file adds exactly `formats.length` outcomes. -/
theorem runFile_outcomes (env : Env) (edits : String → Option Blob)
    (quality : ℚ) (formats : List String) (s : LoopState) (f : InputFile) :
    (runFile env edits quality formats s f).converted.length +
        (runFile env edits quality formats s f).errors.length =
      s.converted.length + s.errors.length + formats.length := by
  have h := foldl_measure_add (fun s => s.converted.length + s.errors.length)
    (fun s fmt => stepTask env edits quality s f fmt) 1
    (fun s fmt => stepTask_outcomes env edits quality s f fmt) formats s
  simpa [runFile] using h

/-- The full file fold bumps the completed counter by `|files| * |formats|`. -/
theorem foldl_runFile_completedFiles (env : Env) (edits : String → Option Blob)
    (quality : ℚ) (formats : List String) (files : List InputFile) (s : LoopState) :
    (files.foldl (runFile env edits quality formats) s).progress.completedFiles =
      s.progress.completedFiles + files.length * formats.length := by
  exact foldl_measure_add (fun s => s.progress.completedFiles)
    (runFile env edits quality formats) formats.length
    (fun s f => runFile_completedFiles env edits quality formats s f) files s

/-- The full file fold adds exactly `|files| * |formats|` outcomes. -/
theorem foldl_runFile_outcomes (env : Env) (edits : String → Option Blob)
    (quality : ℚ) (formats : List String) (files : List InputFile) (s : LoopState) :
    (files.foldl (runFile env edits quality formats) s).converted.length +
        (files.foldl (runFile env edits quality formats) s).errors.length =
      s.converted.length + s.errors.length + files.length * formats.length := by
  exact foldl_measure_add (fun s => s.converted.length + s.errors.length)
    (runFile env edits quality formats) formats.length
    (fun s f => runFile_outcomes env edits quality formats s f) files s

/-- At settlement of a non-empty batch, the completed counter of the image
pipeline equals `|files| * |formats|`. -/
theorem handleConvert_completedFiles (env : Env) (edits : String → Option Blob)
    (files : List InputFile) (formats : List String) (quality : ℚ)
    (prog0 : ConversionProgress) (hne : files ≠ []) :
    (handleConvert env edits files formats quality prog0).progress.completedFiles =
      files.length * formats.length := by
  have hlen : ¬ files.length = 0 := by simpa [List.length_eq_zero] using hne
  simp only [handleConvert, if_neg hlen]
  rw [runBatches_toBatches, foldl_runFile_completedFiles]
  simp

/-- The image pipeline settles with exactly one outcome per task. -/
theorem handleConvert_outcomes (env : Env) (edits : String → Option Blob)
    (files : List InputFile) (formats : List String) (quality : ℚ)
    (prog0 : ConversionProgress) :
    (handleConvert env edits files formats quality prog0).converted.length +
        (handleConvert env edits files formats quality prog0).errors.length =
      files.length * formats.length := by
  by_cases hlen : files.length = 0
  · simp [handleConvert, hlen]
  · simp only [handleConvert, if_neg hlen]
    rw [runBatches_toBatches, foldl_runFile_outcomes]
    simp

/-- Each HEIC-pipeline task bumps the completed counter by exactly one. -/
theorem heicStep_completedFiles (env : Env) (format : String) (quality : ℚ)
    (s : LoopState) (f : InputFile) :
    (heicStep env format quality s f).progress.completedFiles =
      s.progress.completedFiles + 1 := by
  cases hr : heicTask env f format quality <;> simp [heicStep, hr]

/-- At settlement of a non-empty batch, the completed counter of the HEIC
pipeline equals the number of files (one selected format, so one task per
file). -/
theorem heicHandleConvert_completedFiles (env : Env) (files : List InputFile)
    (format : String) (quality : ℚ) (prog0 : ConversionProgress)
    (hne : files ≠ []) :
    (heicHandleConvert env files format quality prog0).progress.completedFiles =
      files.length := by
  have hlen : ¬ files.length = 0 := by simpa [List.length_eq_zero] using hne
  simp only [heicHandleConvert, if_neg hlen]
  rw [foldl_foldl_join, toBatches_join]
  rw [foldl_measure_add (fun s => s.progress.completedFiles)
    (heicStep env format quality) 1
    (fun s f => heicStep_completedFiles env format quality s f) files]
  simp

/-- The payload of a successful part_000 task is fully characterized: it is
the resolved source payload, wrapped by the canvas re-encode exactly when the
source's re-encode gate `reencodeCond` fired. -/
theorem runTask_ok_blob (env : Env) (edits : String → Option Blob)
    (f : InputFile) (format : String) (quality : ℚ) (r : OutputRecord)
    (h : runTask env edits f format quality = Except.ok r) :
    ∃ src, resolveSource env edits f format = Except.ok src ∧
      r.blob = (if reencodeCond edits f format then
                  Blob.reencoded src (encodeMime format)
                else src) := by
  cases hs : resolveSource env edits f format with
  | error m => simp [runTask, hs] at h
  | ok src =>
    refine ⟨src, rfl, ?_⟩
    cases hc : reencodeCond edits f format with
    | true =>
      cases he : env.encodeErr src (encodeMime format) with
      | some m => simp [runTask, hs, hc, convertImageFormat, he] at h
      | none =>
        simp only [runTask, hs, hc, convertImageFormat, he, if_true] at h
        simp only [Except.ok.injEq] at h
        subst h
        simp
    | false =>
      simp only [runTask, hs, hc, Bool.false_eq_true, if_false] at h
      simp only [Except.ok.injEq] at h
      subst h
      simp

/-- A saved edit is the effective source payload, whatever the target
format. -/
theorem resolveSource_edit (env : Env) (edits : String → Option Blob)
    (f : InputFile) (format : String) (b : Blob) (h : edits f.name = some b) :
    resolveSource env edits f format = Except.ok b := by
  simp [resolveSource, h]

/-- Unchecking a format leaves a nodup non-empty selection non-empty: the
filter removes at most the one occurrence of the unchecked format and only
runs when at least two formats are selected. -/
theorem handleFormatChange_ne_nil (formats : List OutputFormat)
    (format : OutputFormat) (checked : Bool)
    (h1 : formats.Nodup) (h2 : formats ≠ []) :
    handleFormatChange formats format checked ≠ [] := by
  unfold handleFormatChange
  split
  · simp
  · split
    · intro hnil
      rename_i hlen
      have hall : ∀ a ∈ formats, a = format := by
        intro a ha
        have := (List.filter_eq_nil_iff.mp hnil) a ha
        simpa using this
      have hcount : formats.count format = formats.length :=
        List.count_eq_length.mpr fun b hb => ((hall b hb).symm : format = b)
      have hle := List.nodup_iff_count_le_one.mp h1 format
      omega
    · exact h2

/-! ### Concrete fixtures used by the closed instances below -/

/-- An environment in which every decode and encode succeeds. -/
def exEnvOk : Env := { decodeErr := fun _ _ => none, encodeErr := fun _ _ => none }

/-- An environment in which every `heic2any` decode of the file `"b.heic"`
fails with the message `"Conversion failed"` and everything else succeeds. -/
def exEnvBFails : Env :=
  { decodeErr := fun n _ => if n = "b.heic" then some "Conversion failed" else none
    encodeErr := fun _ _ => none }

/-- No saved edits (an empty `fileEdits` mapping). -/
def noEdits : String → Option Blob := fun _ => none

/-- A blank progress structure (the state before any batch was started). -/
def blankProgress : ConversionProgress :=
  { totalFiles := 0, completedFiles := 0, currentFile := "", errors := [] }

/-- Two HEIC uploads. -/
def exFiles : List InputFile :=
  [{ name := "a.heic", ttype := "image/heic" }, { name := "b.heic", ttype := "image/heic" }]

/-- The second of the two uploads (the one `exEnvBFails` makes fail). -/
def exFileB : InputFile := { name := "b.heic", ttype := "image/heic" }

/-- A fresh loop state. -/
def exState : LoopState := { progress := blankProgress, converted := [], errors := [] }

/-- A PNG upload carrying a saved edit whose payload the editor encoded as
PNG. -/
def c5File : InputFile := { name := "a.png", ttype := "image/png" }

/-- The edit mapping holding that saved edit. -/
def c5Edits : String → Option Blob :=
  fun n => if n = "a.png" then some (Blob.edited "image/png" 0) else none

/-- A JPEG upload with a saved edit (payload encoded as PNG, tag 7). -/
def c4File : InputFile := { name := "a.jpg", ttype := "image/jpeg" }

/-- The edit mapping of `c4File`. -/
def c4Edits : String → Option Blob :=
  fun n => if n = "a.jpg" then some (Blob.edited "image/png" 7) else none

/-- The record the webp conversion of the edited `c4File` produces. -/
def c4RecWebp : OutputRecord :=
  { name := "a.webp", mime := "image/webp"
    blob := Blob.reencoded (Blob.edited "image/png" 7) "image/webp"
    format := "webp" }

/-- A clock whose first two readings fall on either side of a minute
boundary. -/
def c10Clock : Nat → DateParts :=
  fun n => if n = 0 then ⟨2025, 1, 1, 0, 10⟩ else ⟨2025, 1, 1, 0, 11⟩

/-! ### The claims -/

/-- Claim C1: for every call to convert with a non-empty ordered list of files
and a non-empty format selection, when the batch settles the progress counter
`completedTasks` equals `|files| * |formats|`, regardless of how many
individual tasks failed — each task increments the counter by exactly 1
whether it succeeds or fails. Stated for the image pipeline (part_000) and for
the HEIC-only pipeline (part_009, one selected format, so `|formats| = 1`). -/
theorem c1_completedTasks_eq_totalTasks :
    (∀ (env : Env) (edits : String → Option Blob) (files : List InputFile)
        (formats : List String) (quality : ℚ) (prog0 : ConversionProgress),
      files ≠ [] → formats ≠ [] →
      (handleConvert env edits files formats quality prog0).progress.completedFiles =
        files.length * formats.length) ∧
    (∀ (env : Env) (files : List InputFile) (format : String) (quality : ℚ)
        (prog0 : ConversionProgress),
      files ≠ [] →
      (heicHandleConvert env files format quality prog0).progress.completedFiles =
        files.length) := by
  constructor
  · intro env edits files formats quality prog0 hne _
    exact handleConvert_completedFiles env edits files formats quality prog0 hne
  · intro env files format quality prog0 hne
    exact heicHandleConvert_completedFiles env files format quality prog0 hne

/-- Witness for C1: two files, two formats, one file's decodes failing — the
counter still settles at 4; and the HEIC pipeline settles at 2. -/
theorem c1_completedTasks_eq_totalTasks_witness :
    (handleConvert exEnvBFails noEdits exFiles ["jpeg", "png"] 1
        blankProgress).progress.completedFiles = 4 ∧
    (heicHandleConvert exEnvBFails exFiles "png" 1
        blankProgress).progress.completedFiles = 2 := by
  constructor
  · exact (c1_completedTasks_eq_totalTasks.1 exEnvBFails noEdits exFiles
      ["jpeg", "png"] 1 blankProgress (by decide) (by decide)).trans (by decide)
  · exact (c1_completedTasks_eq_totalTasks.2 exEnvBFails exFiles "png" 1
      blankProgress (by decide)).trans (by decide)

/-- Claim C2: every (file, format) task contributes exactly one outcome — at
settlement `records.length + errors.length = |files| * |formats|` (each failed
task appends exactly one error, so the error count is the distinct failed task
count), and a single task step adds exactly one outcome, never both a record
and an error and never neither. -/
theorem c2_one_outcome_per_task :
    (∀ (env : Env) (edits : String → Option Blob) (files : List InputFile)
        (formats : List String) (quality : ℚ) (prog0 : ConversionProgress),
      (handleConvert env edits files formats quality prog0).converted.length +
          (handleConvert env edits files formats quality prog0).errors.length =
        files.length * formats.length) ∧
    (∀ (env : Env) (edits : String → Option Blob) (quality : ℚ) (s : LoopState)
        (f : InputFile) (format : String),
      (stepTask env edits quality s f format).converted.length +
          (stepTask env edits quality s f format).errors.length =
        s.converted.length + s.errors.length + 1) := by
  exact ⟨fun env edits files formats quality prog0 =>
      handleConvert_outcomes env edits files formats quality prog0,
    fun env edits quality s f format =>
      stepTask_outcomes env edits quality s f format⟩

/-- Claim C3: a failing task appends exactly the formatted error string
`"<file.name> to <format>: <message>"`, adds no output record, and the batch
still runs every remaining task to completion (the failure is caught at the
task boundary and never propagates: `handleConvert` settles with all
`|files| * |formats|` tasks accounted). -/
theorem c3_failure_isolated :
    ∀ (env : Env) (edits : String → Option Blob) (quality : ℚ) (s : LoopState)
      (f : InputFile) (format : String) (msg : String),
      runTask env edits f format quality = Except.error msg →
      (stepTask env edits quality s f format).errors =
          s.errors ++ [f.name ++ " to " ++ format ++ ": " ++ msg] ∧
      (stepTask env edits quality s f format).converted = s.converted ∧
      (stepTask env edits quality s f format).progress.completedFiles =
          s.progress.completedFiles + 1 ∧
      (∀ (files : List InputFile) (formats : List String)
          (prog0 : ConversionProgress),
        files ≠ [] →
        (handleConvert env edits files formats quality prog0).progress.completedFiles =
          files.length * formats.length) := by
  intro env edits quality s f format msg h
  refine ⟨by simp [stepTask, h], by simp [stepTask, h],
    stepTask_completedFiles env edits quality s f format,
    fun files formats prog0 hne =>
      handleConvert_completedFiles env edits files formats quality prog0 hne⟩

/-- Witness for C3: the decode of `"b.heic"` fails; exactly the string
`"b.heic to jpeg: Conversion failed"` is appended, no record is added, and a
batch containing the failing file still settles with all tasks counted. -/
theorem c3_failure_isolated_witness :
    (stepTask exEnvBFails noEdits 1 exState exFileB "jpeg").errors =
        ["b.heic to jpeg: Conversion failed"] ∧
    (stepTask exEnvBFails noEdits 1 exState exFileB "jpeg").converted = [] ∧
    (handleConvert exEnvBFails noEdits exFiles ["jpeg", "png"] 1
        blankProgress).progress.completedFiles = 4 := by
  have h := c3_failure_isolated exEnvBFails noEdits 1 exState exFileB "jpeg"
    "Conversion failed" rfl
  exact ⟨h.1.trans (by decide), h.2.1.trans (by decide),
    (h.2.2.2 exFiles ["jpeg", "png"] blankProgress (by decide)).trans (by decide)⟩

/-- Claim C4: for every file that has a saved edit and for every selected
target format, the conversion source of the (file, format) task is the edited
payload, not the original file bytes; every produced output is derived from
that same edited payload (either passed through verbatim or re-encoded from
it), so two different formats both derive from the one edited payload. -/
theorem c4_edit_precedence :
    ∀ (env : Env) (edits : String → Option Blob) (f : InputFile) (quality : ℚ)
      (b : Blob),
      edits f.name = some b →
      (∀ format, resolveSource env edits f format = Except.ok b) ∧
      (∀ format r, runTask env edits f format quality = Except.ok r →
        r.blob = b ∨ ∃ m, r.blob = Blob.reencoded b m) := by
  intro env edits f quality b h
  refine ⟨fun format => resolveSource_edit env edits f format b h, ?_⟩
  intro format r hr
  obtain ⟨src, hsrc, hblob⟩ := runTask_ok_blob env edits f format quality r hr
  have hb : src = b := by
    rw [resolveSource_edit env edits f format b h] at hsrc
    exact (Except.ok.injEq _ _ ▸ hsrc).symm
  subst hb
  cases hc : reencodeCond edits f format with
  | true =>
    right
    exact ⟨encodeMime format, by simpa [hc] using hblob⟩
  | false =>
    left
    simpa [hc] using hblob

/-- Witness for C4: the edited `"a.jpg"` resolved for two different formats
gives the same edited payload both times, and the webp output is re-encoded
from that payload. -/
theorem c4_edit_precedence_witness :
    resolveSource exEnvOk c4Edits c4File "png" = Except.ok (Blob.edited "image/png" 7) ∧
    resolveSource exEnvOk c4Edits c4File "webp" = Except.ok (Blob.edited "image/png" 7) ∧
    (c4RecWebp.blob = Blob.edited "image/png" 7 ∨
      ∃ m, c4RecWebp.blob = Blob.reencoded (Blob.edited "image/png" 7) m) := by
  have h := c4_edit_precedence exEnvOk c4Edits c4File 1 (Blob.edited "image/png" 7)
    (by decide)
  exact ⟨h.1 "png", h.1 "webp", h.2 "webp" c4RecWebp rfl⟩

/-- Claim C5 as stated is false on the code: for the edited `"a.png"` targeted
at jpeg, the spec's condition (target differs from the resolved payload's
encoding) demands a re-encode, but the source's gate — which tests the
ORIGINAL file's MIME type and skips re-encoding entirely whenever an edit
exists and the target is not webp — passes the PNG-encoded edited payload
through unchanged into the jpeg output record. -/
theorem c5_counterexample :
    specReencodeCond (Blob.edited "image/png" 0) "jpeg" = true ∧
    reencodeCond c5Edits c5File "jpeg" = false ∧
    runTask exEnvOk c5Edits c5File "jpeg" 1 =
      Except.ok
        { name := "a.jpeg", mime := "image/jpeg"
          blob := Blob.edited "image/png" 0, format := "jpeg" } ∧
    (Blob.edited "image/png" 0).isReencoded = false := by
  exact ⟨by decide, by decide, rfl, by decide⟩

/-- Claim C5, amended: the Codec Adapter re-encode runs if and only if the
target is webp, or the file has no saved edit and the original file's declared
MIME type differs from `image/<target>`; when the gate does not fire the
resolved payload passes through to the record unchanged. In particular a
native-format no-edit conversion passes through, but an edited payload
converting to a non-webp target also passes through even when its encoding
differs from the target's. -/
theorem c5_reencode_gate :
    ∀ (env : Env) (edits : String → Option Blob) (f : InputFile)
      (format : String) (quality : ℚ) (r : OutputRecord),
      runTask env edits f format quality = Except.ok r →
      ∃ src, resolveSource env edits f format = Except.ok src ∧
        r.blob = (if format == "webp" ||
                      (f.ttype != "image/" ++ format && (edits f.name).isNone) then
                    Blob.reencoded src (encodeMime format)
                  else src) := by
  intro env edits f format quality r h
  exact runTask_ok_blob env edits f format quality r h

/-- Witness for C5 (amended): a PNG file converted to png with no edit — the
gate does not fire and the original payload passes through verbatim. -/
theorem c5_reencode_gate_witness :
    ∃ src, resolveSource exEnvOk noEdits c5File "png" = Except.ok src ∧
      (Blob.orig "a.png" "image/png") =
        (if ("png" == "webp" ||
              (c5File.ttype != "image/" ++ "png" && (noEdits c5File.name).isNone)) then
          Blob.reencoded src (encodeMime "png")
        else src) := by
  have h := c5_reencode_gate exEnvOk noEdits c5File "png" 1
    { name := "a.png", mime := "image/png"
      blob := Blob.orig "a.png" "image/png", format := "png" } rfl
  exact h

/-- Claim C6 is the spec's intent but not the code's behavior: the source's
base-name derivation (`substring` up to the last dot, with
`split(".").pop()` as the extension) turns an extension-less name into an
EMPTY base — the whole name is treated as the extension — so `"file"`
converted to png is named `".png"`, not `"file.png"`. Dotted names follow the
claim. The third conjunct shows the empty base for every target format. -/
theorem c6_extensionless_base_empty :
    outputName "file" "png" = ".png" ∧
    outputName "photo.heic" "jpeg" = "photo.jpeg" ∧
    ∀ format : String, outputName "file" format = "." ++ format := by
  refine ⟨by decide, by decide, ?_⟩
  intro format
  rfl

/-- Claim C7 holds for the two converter pages that count `converted.length`,
but the session page (`page.tsx`) bumps the persisted `totalConversions` by
`|files| * |formats|` — the total task count — regardless of failures: with
two tasks of which one fails it records 2 although only 1 record was
produced. -/
theorem c7_usage_counter_delta :
    (pageHandleConvert exEnvBFails exFiles ["jpeg"] 1 blankProgress).statsDelta = 2 ∧
    (pageHandleConvert exEnvBFails exFiles ["jpeg"] 1 blankProgress).converted.length = 1 ∧
    (∀ (env : Env) (edits : String → Option Blob) (files : List InputFile)
        (formats : List String) (quality : ℚ) (prog0 : ConversionProgress),
      (handleConvert env edits files formats quality prog0).statsDelta =
        (handleConvert env edits files formats quality prog0).converted.length) ∧
    (∀ (env : Env) (files : List InputFile) (format : String) (quality : ℚ)
        (prog0 : ConversionProgress),
      (heicHandleConvert env files format quality prog0).statsDelta =
        (heicHandleConvert env files format quality prog0).converted.length) := by
  refine ⟨by decide, by decide, ?_, ?_⟩
  · intro env edits files formats quality prog0
    by_cases hlen : files.length = 0 <;> simp [handleConvert, hlen]
  · intro env files format quality prog0
    by_cases hlen : files.length = 0 <;> simp [heicHandleConvert, hlen]

/-- Claim C8: deselecting a format while the selection has exactly one member
is rejected and leaves the selection unchanged (still length 1); and for a
duplicate-free selection set, no selection operation can ever empty it. -/
theorem c8_selection_never_empty :
    (∀ (formats : List OutputFormat) (format : OutputFormat),
      formats.length = 1 →
      handleFormatChange formats format false = formats ∧
      (handleFormatChange formats format false).length = 1) ∧
    (∀ (formats : List OutputFormat) (format : OutputFormat) (checked : Bool),
      formats.Nodup → formats ≠ [] →
      handleFormatChange formats format checked ≠ []) := by
  constructor
  · intro formats format h
    have hnot : ¬ 1 < formats.length := by omega
    exact ⟨by simp [handleFormatChange, hnot], by simp [handleFormatChange, hnot, h]⟩
  · intro formats format checked h1 h2
    exact handleFormatChange_ne_nil formats format checked h1 h2

/-- Witness for C8: deselecting jpeg from the singleton selection `[jpeg]`
leaves it untouched, and deselecting png from `[jpeg, png]` leaves jpeg. -/
theorem c8_selection_never_empty_witness :
    handleFormatChange [OutputFormat.jpeg] OutputFormat.jpeg false =
        [OutputFormat.jpeg] ∧
    handleFormatChange [OutputFormat.jpeg, OutputFormat.png] OutputFormat.png
        false ≠ [] := by
  exact ⟨(c8_selection_never_empty.1 [OutputFormat.jpeg] OutputFormat.jpeg
      (by decide)).1,
    c8_selection_never_empty.2 [OutputFormat.jpeg, OutputFormat.png]
      OutputFormat.png false (by decide) (by decide)⟩

/-- Claim C9: the edit-save step normalizes a crop rectangle dragged with
negative width/height to the equivalent rectangle with positive sides —
`{x:100, y:100, width:-50, height:-30}` becomes exactly
`{x:50, y:70, width:50, height:30}`; in general the normalized corner is the
minimum corner of the dragged span, the sides are the absolute values, and
they are strictly positive whenever the dragged sides were non-zero (the only
case `handleSave` applies the crop in). -/
theorem c9_crop_normalization :
    normalizeCrop ⟨100, 100, -50, -30⟩ = ⟨50, 70, 50, 30⟩ ∧
    ∀ r : CropRect,
      normalizeCrop r =
        { x := min r.x (r.x + r.width), y := min r.y (r.y + r.height),
          width := |r.width|, height := |r.height| } ∧
      (r.width ≠ 0 → 0 < (normalizeCrop r).width) ∧
      (r.height ≠ 0 → 0 < (normalizeCrop r).height) := by
  refine ⟨by decide, ?_⟩
  intro r
  refine ⟨?_, fun hw => by simpa [normalizeCrop] using abs_pos.mpr hw,
    fun hh => by simpa [normalizeCrop] using abs_pos.mpr hh⟩
  simp only [normalizeCrop, CropRect.mk.injEq, and_true]
  constructor
  · rw [min_def]
    split <;> split <;> omega
  · rw [min_def]
    split <;> split <;> omega

/-- Witness for C9: the concrete dragged rectangle has strictly positive
normalized sides. -/
theorem c9_crop_normalization_witness :
    0 < (normalizeCrop ⟨100, 100, -50, -30⟩).width ∧
    0 < (normalizeCrop ⟨100, 100, -50, -30⟩).height := by
  have h := c9_crop_normalization.2 ⟨100, 100, -50, -30⟩
  exact ⟨h.2.1 (by decide), h.2.2 (by decide)⟩

/-- Claim C10 as stated is false on the code: `new Date()` sits INSIDE the
per-file `files.map` callback, so the timestamp is read once per file, not
once per resolver invocation. With two files and the clock crossing a minute
boundary between the two reads, one batch rename in date mode resolves the
same pattern to two names with different date components. -/
theorem c10_counterexample :
    batchRenameNames ["a.heic", "b.heic"] "photo" PatternType.date 1
        "yyyy-MM-dd-HH-mm" true c10Clock =
      ["photo-2025-01-01-00-10.heic", "photo-2025-01-01-00-11.heic"] ∧
    ("photo-2025-01-01-00-10.heic" : String) ≠ "photo-2025-01-01-00-11.heic" := by
  exact ⟨by decide, by decide⟩

/-- Claim C10, amended: the timestamp is read anew inside each per-file
callback; all files of one batch rename share the same formatted date
component exactly in the benign case where every per-file clock reading equals
the first one (e.g. the clock does not advance during the synchronous map),
in which case the resolver agrees with the spec's compute-once semantics. -/
theorem c10_date_once_iff_clock_stable :
    ∀ (files : List String) (pattern : String) (ptype : PatternType)
      (startNumber : Nat) (dateFormat : String) (keepExt : Bool)
      (clock : Nat → DateParts),
      (∀ n, clock n = clock 0) →
      batchRenameNames files pattern ptype startNumber dateFormat keepExt clock =
        batchRenameNamesOnce files pattern ptype startNumber dateFormat keepExt
          clock := by
  intro files pattern ptype startNumber dateFormat keepExt clock h
  unfold batchRenameNames batchRenameNamesOnce
  apply List.map_congr_left
  intro a _
  rw [h a.1]

/-- Witness for C10 (amended): under a constant clock the per-file readings
and the compute-once semantics resolve the same names. -/
theorem c10_date_once_iff_clock_stable_witness :
    batchRenameNames ["a.heic", "b.heic"] "photo" PatternType.date 1
        "yyyy-MM-dd-HH-mm" true (fun _ => ⟨2025, 1, 1, 0, 10⟩) =
      batchRenameNamesOnce ["a.heic", "b.heic"] "photo" PatternType.date 1
        "yyyy-MM-dd-HH-mm" true (fun _ => ⟨2025, 1, 1, 0, 10⟩) := by
  exact c10_date_once_iff_clock_stable ["a.heic", "b.heic"] "photo"
    PatternType.date 1 "yyyy-MM-dd-HH-mm" true (fun _ => ⟨2025, 1, 1, 0, 10⟩)
    (fun _ => rfl)
